/-
Verification of the session-orchestration core of the agentic fitness app.

The Python sources are shallowly embedded as Lean definitions:
  * `supervisor_node`, `route_after_supervisor` — src/agents/supervisor.py, src/graph.py
  * `decay_node` — src/agents/decay.py
  * `history_analysis_node` — src/agents/history_analyzer.py
  * `finalize_workout_node` and its fatigue helpers — src/agents/finalize_workout.py
  * worker state deltas — src/agents/workers.py, src/agents/recovery_worker.py
  * `inject_exercise_ids` — src/agents/workout_utils.py
  * the corrupted-checkpoint recovery of `run_workout` — src/graph.py, src/db_utils.py

Numeric state (fatigue scores, thresholds, RPE values) is a Python float; it is
modelled over an arbitrary `LinearOrderedField` so that statements can be read
at `ℝ` (the idealised semantics) and evaluated at `ℚ` (for concrete witnesses).
Only the time-decay formula, which raises 0.97 to a real-valued power, is
specific to `ℝ`.

Python dicts are modelled as ordered association lists with in-place update
(`dictInsert`), matching insertion-order semantics of `dict`.
-/

import Mathlib

namespace FitApp

/-! ## String helpers (Python `in`, `.lower()`, `.strip()` etc.) -/

/-- Char-list version of Python `needle == hay[:len(needle)]`. -/
def leadsWith : List Char → List Char → Bool
  | [], _ => true
  | _ :: _, [] => false
  | a :: as, b :: bs => a == b && leadsWith as bs

/-- Char-list version of Python `needle in hay` (contiguous substring). -/
def subIn (needle : List Char) : List Char → Bool
  | [] => leadsWith needle []
  | c :: cs => leadsWith needle (c :: cs) || subIn needle cs

/-- Python `needle in hay` on strings. -/
def containsSub (hay needle : String) : Bool :=
  subIn needle.data hay.data

/-- Python `str.lower()` (ASCII case folding, which is all the code uses). -/
def lowerStr (s : String) : String :=
  String.mk (s.data.map Char.toLower)

/-- Python `str.strip()`. -/
def stripStr (s : String) : String :=
  s.trim

/-! ## Python dicts as ordered association lists -/

/-- `d.get(k, default)`. -/
def dictGet [BEq κ] (m : List (κ × α)) (k : κ) (d : α) : α :=
  match m.find? (fun p => p.1 == k) with
  | some p => p.2
  | none => d

/-- Membership test `k in d`. -/
def dictHas [BEq κ] (m : List (κ × α)) (k : κ) : Bool :=
  (m.find? (fun p => p.1 == k)).isSome

/-- `d[k] = v`: replace in place when the key exists, else append (dict
insertion-order semantics). -/
def dictInsert [BEq κ] (m : List (κ × α)) (k : κ) (v : α) : List (κ × α) :=
  match m with
  | [] => [(k, v)]
  | p :: rest => if p.1 == k then (k, v) :: rest else p :: dictInsert rest k v

/-- `{**m1, **m2}`: start from `m1`, write every entry of `m2` over it. -/
def dictUnion [BEq κ] (m1 m2 : List (κ × α)) : List (κ × α) :=
  m2.foldl (fun acc p => dictInsert acc p.1 p.2) m1

/-- `max(d.values()) if d else 0.0` — as computed by the supervisor and the
routing gate for the fatigue map. -/
def maxValues [LinearOrder α] [Zero α] (m : List (String × α)) : α :=
  match m with
  | [] => 0
  | p :: rest => rest.foldl (fun acc q => max acc q.2) p.2

/-- Order-preserving first-occurrence deduplication — the `seen`-set loop used
by `_fatigue_keys_for_workout` in both workers.py and finalize_workout.py. -/
def dedupFirst : List String → List String → List String
  | [], _ => []
  | x :: xs, seen =>
    if seen.contains x then dedupFirst xs seen else x :: dedupFirst xs (x :: seen)

/-! ## Data model (src/state.py) -/

/-- One item of a generated plan.  Strength/HIIT/Kickboxing items carry
`exercise_name`, yoga items `pose_name`; `id` is the stable positional id
(`ex_0`, `ex_1`, …) once assigned.  A missing key is modelled as `""`. -/
structure Exercise where
  exercise_name : String := ""
  pose_name : String := ""
  id : String := ""
  deriving Repr, DecidableEq

/-- A generated plan (`daily_workout` dict).  Exactly the keys the embedded
nodes read: the three focus fields (missing key = `""`) and the three item
lists (strength/HIIT/kickboxing use `exercises`, yoga `poses`, recovery
`activities`). -/
structure Workout where
  focus_area : String := ""
  focus_system : String := ""
  focus_attribute : String := ""
  exercises : List Exercise := []
  poses : List Exercise := []
  activities : List Exercise := []
  deriving Repr, DecidableEq

/-- One logged set (`SetLog` in src/state.py). -/
structure SetLog (α : Type) where
  weight : α
  reps : ℕ
  rpe : α
  deriving Repr, DecidableEq

/-- Logged performance for one exercise (`ExerciseLog` in src/state.py). -/
structure ExerciseLog (α : Type) where
  exercise_name : String := ""
  muscle_group : String := ""
  sets : List (SetLog α) := []
  average_rpe : α
  deriving Repr, DecidableEq

/-- The graph state (`FitnessState` in src/state.py), restricted to the fields
the embedded nodes read or write.  Presentation-only fields (legacy
`selected_creator`, `current_workout` JSON string, `active_philosophy`,
biometrics, RAG context) are omitted.  `subscribed_personas = none` and
`= some []` both read back as `[]` in the code (`state.get(...) or []`), so the
field is a plain list. -/
structure FitnessState (α : Type) where
  user_id : String
  selected_persona : String
  next_node : String
  is_onboarded : Bool
  subscribed_personas : List String
  fatigue_scores : List (String × α)
  last_session_timestamp : α
  workout_history : List Workout
  max_workouts_per_week : ℕ
  workouts_completed_this_week : ℕ
  fatigue_threshold : α
  messages : List (String × String)
  goal : String
  daily_workout : Option Workout
  active_logs : List (ExerciseLog α)
  is_working_out : Bool
  deriving DecidableEq

/-! ## Supervisor / Safety Governor (src/agents/supervisor.py) -/

/-- `COMPLAINT_KEYWORDS` from src/agents/supervisor.py. -/
def COMPLAINT_KEYWORDS : List String :=
  ["sore", "tight", "hurt", "pain", "tired", "fatigued", "exhausted", "stiff",
   "aching", "burn", "fried", "heavy", "beat up", "cramp", "strained", "injured",
   "uncomfortable", "numb", "tingling", "swollen", "can\x27t", "cannot", "struggling"]

/-- `PERSONA_SWITCH_KEYWORDS` from src/agents/supervisor.py. -/
def PERSONA_SWITCH_KEYWORDS : List String :=
  ["yoga", "hiit", "kickboxing", "strength", "iron", "cardio", "mobility",
   "recovery", "rest day", "stretch", "boxing", "weights", "run",
   "interval", "meditation", "flow"]

/-- `_QA_STARTERS` from src/agents/supervisor.py. -/
def QA_STARTERS : List String :=
  ["how", "what", "why", "when", "who", "where", "which", "tell me",
   "explain", "can you", "could you", "should i", "is it", "are there",
   "do i", "does", "did", "will i", "would", "advice", "help me understand"]

/-- `is_question` from src/agents/supervisor.py: complaint / persona keywords
override; otherwise a trailing question mark or a recognised question-word
opening counts as a question. -/
def is_question (user_message : String) : Bool :=
  if stripStr user_message = "" then false
  else
    let text := lowerStr (stripStr user_message)
    if COMPLAINT_KEYWORDS.any (fun kw => containsSub text kw) then false
    else if PERSONA_SWITCH_KEYWORDS.any (fun kw => containsSub text kw) then false
    else if text.endsWith "?" then true
    else if QA_STARTERS.any (fun kw => text.startsWith kw) then true
    else false

/-- `needs_llm_reasoning` from src/agents/supervisor.py. -/
def needs_llm_reasoning (user_message : String) : Bool :=
  if stripStr user_message = "" then false
  else
    let text := lowerStr (stripStr user_message)
    COMPLAINT_KEYWORDS.any (fun kw => containsSub text kw)
      || PERSONA_SWITCH_KEYWORDS.any (fun kw => containsSub text kw)

/-- The `persona_to_worker` mapping in `supervisor_node`. -/
def persona_to_worker (p : String) : Option String :=
  [("iron", "iron_worker"), ("yoga", "yoga_worker"),
   ("hiit", "hiit_worker"), ("kickboxing", "kb_worker")].lookup p

/-- The four-worker fallback set. -/
def allWorkers : List String :=
  ["iron_worker", "yoga_worker", "hiit_worker", "kb_worker"]

/-- `allowed_workers` computation in `supervisor_node` (the Python set is
modelled as a first-occurrence list; only membership and first-element choice
are ever used). -/
def allowedWorkers (subscribed : List String) : List String :=
  if subscribed.isEmpty then allWorkers
  else
    let l := dedupFirst (subscribed.filterMap persona_to_worker) []
    if l.isEmpty then allWorkers else l

/-- The `for p in subscribed` loop of `_pick_from_subscribed`. -/
def pickLoop (allowed : List String) : List String → Option (String × String)
  | [] => none
  | p :: rest =>
    match persona_to_worker p with
    | some w => if allowed.contains w then some (w, p) else pickLoop allowed rest
    | none => pickLoop allowed rest

/-- `_pick_from_subscribed` in `supervisor_node`: prefer `current_persona` when
subscribed (and its worker allowed), else the first subscribed persona with an
allowed worker, else the fallback `subscribed[0]` (or `current_persona` when
the subscription list is empty). -/
def pickFromSubscribed (subscribed : List String) (current : String)
    (allowed : List String) : String × String :=
  let attempt : Option (String × String) :=
    if subscribed.contains current then
      let w := (persona_to_worker current).getD "iron_worker"
      if allowed.contains w then some (w, current) else none
    else none
  match attempt with
  | some r => r
  | none =>
    match pickLoop allowed subscribed with
    | some r => r
    | none =>
      let p := subscribed.headD current
      ((persona_to_worker p).getD "iron_worker", p)

/-- The structured output of the external decision call (`SupervisorDecision`
in src/agents/supervisor.py).  The LLM is outside the verified core, so a
decision value is passed in as an oracle parameter. -/
structure SupervisorDecision (α : Type) where
  next_node : String
  selected_persona : String
  fatigue_updates : List (String × α)

/-- The state delta returned by `supervisor_node`.  Branches that omit the
`fatigue_scores` key in the returned dict yield `none` here. -/
structure RouterOutput (α : Type) where
  next_node : String
  selected_persona : String
  fatigue_scores : Option (List (String × α))

/-- The last `role == "user"` message, scanned in reverse
(`supervisor_node` lines 255-259); default `""`. -/
def lastUserMessage (messages : List (String × String)) : String :=
  match messages.reverse.find? (fun m => m.1 == "user") with
  | some m => m.2
  | none => ""

/-- `supervisor_node` from src/agents/supervisor.py.  Branch order is the
source's: (1) frequency block, (2) fatigue threshold, (3) empty-conversation
default routing, (4) question fast path, (5) no-reasoning fast path, (6) the
external decision with the subscribed-persona override.  `decision` stands for
the external reasoning call's result. -/
def supervisor_node [LinearOrderedField α] (state : FitnessState α)
    (decision : SupervisorDecision α) : RouterOutput α :=
  let current_persona := state.selected_persona
  let fatigue_scores := state.fatigue_scores
  if state.workouts_completed_this_week ≥ state.max_workouts_per_week then
    ⟨"end", current_persona, some fatigue_scores⟩
  else if maxValues fatigue_scores > state.fatigue_threshold then
    ⟨"recovery_worker", current_persona, some fatigue_scores⟩
  else
    let subscribed := state.subscribed_personas
    let allowed := allowedWorkers subscribed
    if state.messages.isEmpty then
      let r := pickFromSubscribed subscribed current_persona allowed
      ⟨r.1, r.2, none⟩
    else
      let last_user_message := lastUserMessage state.messages
      if is_question last_user_message then
        ⟨"qa_worker", current_persona, none⟩
      else if !(needs_llm_reasoning last_user_message) then
        let r := pickFromSubscribed subscribed current_persona allowed
        ⟨r.1, r.2, none⟩
      else
        let chosen₀ := decision.selected_persona
        let next₀ := decision.next_node
        let chosen :=
          if !subscribed.isEmpty && !(subscribed.contains chosen₀) then
            subscribed.headD chosen₀
          else chosen₀
        let next :=
          if !subscribed.isEmpty && !(subscribed.contains chosen₀) then
            let w := (persona_to_worker chosen).getD "iron_worker"
            if allowed.contains w then w else allowed.headD "iron_worker"
          else next₀
        let updated := decision.fatigue_updates.foldl
          (fun acc u => dictInsert acc u.1 u.2) fatigue_scores
        ⟨next, chosen, some updated⟩

/-- `route_after_supervisor` from src/graph.py: the routing gate re-applies the
two safety overrides against the current state (after the optional stages) and
only then follows the supervisor's `next_node`. -/
def route_after_supervisor [LinearOrderedField α] (state : FitnessState α) : String :=
  if state.workouts_completed_this_week ≥ state.max_workouts_per_week then "end"
  else if maxValues state.fatigue_scores > state.fatigue_threshold then "recovery_worker"
  else state.next_node

/-! ## Fatigue decay (src/agents/decay.py)

The Python code computes `fatigue * 0.97 ** hours_passed` in floating point
with a real-valued exponent; the model uses `Real.rpow`, which is why these
two definitions (alone in this development) are noncomputable. -/

/-- Per-value decay: `max(0.0, v * decay_factor ** hours)` with
`decay_factor = 0.97` (src/agents/decay.py lines 45-53). -/
noncomputable def decayValue (v hours : ℝ) : ℝ :=
  max 0 (v * (0.97 : ℝ) ^ hours)

/-- `decay_node` from src/agents/decay.py: `hours = (now - last)/3600`, decay
every fatigue value, refresh `last_session_timestamp` to `now`. -/
noncomputable def decay_node (now : ℝ) (state : FitnessState ℝ) : FitnessState ℝ :=
  let hours_passed := (now - state.last_session_timestamp) / 3600
  { state with
    fatigue_scores := state.fatigue_scores.map (fun p => (p.1, decayValue p.2 hours_passed)),
    last_session_timestamp := now }

/-! ## History analysis (src/agents/history_analyzer.py) -/

/-- `updated[k] = min(1.0, updated.get(k, 0.0) + d)` — the bump pattern used
throughout the fatigue-mutating nodes. -/
def bumpKey [LinearOrderedField α] (m : List (String × α)) (k : String) (d : α) :
    List (String × α) :=
  dictInsert m k (min 1 (dictGet m k 0 + d))

/-- `any(term in name for term in terms)`. -/
def anyTermIn (name : String) (terms : List String) : Bool :=
  terms.any (fun t => containsSub name t)

/-- The per-exercise scan of `history_analysis_node` (lines 82-100). -/
def historyExerciseStep [LinearOrderedField α] (m : List (String × α))
    (e : Exercise) : List (String × α) :=
  let n₀ := lowerStr e.exercise_name
  let exercise_name := if n₀ = "" then lowerStr e.pose_name else n₀
  let m := if anyTermIn exercise_name ["squat", "deadlift", "lunge", "leg press", "leg curl"]
    then bumpKey m "legs" 0.2 else m
  let m := if anyTermIn exercise_name ["bench", "press", "push-up", "shoulder press", "dip"]
    then bumpKey m "push" 0.2 else m
  let m := if anyTermIn exercise_name ["row", "pull-up", "lat", "chin-up", "pull"]
    then bumpKey m "pull" 0.2 else m
  let m := if anyTermIn exercise_name ["sprint", "burpee", "jump", "explosive"]
    then bumpKey m "cns" 0.15 else m
  m

/-- `history_analysis_node` from src/agents/history_analyzer.py: preload
fatigue from the focus tags and exercises of the most recent history entry;
with no history the state is unchanged. -/
def history_analysis_node [LinearOrderedField α] (state : FitnessState α) :
    FitnessState α :=
  match state.workout_history.getLast? with
  | none => state
  | some last_workout =>
    let focus := lowerStr last_workout.focus_area
    let focus_attribute := lowerStr last_workout.focus_attribute
    let m := state.fatigue_scores
    let m := if containsSub focus "legs" || containsSub focus "leg"
        || containsSub focus "squat" || containsSub focus "deadlift"
      then bumpKey m "legs" 0.3 else m
    let m := if containsSub focus "push" || containsSub focus "chest"
        || containsSub focus "shoulder" || containsSub focus "press"
      then bumpKey m "push" 0.3 else m
    let m := if containsSub focus "pull" || containsSub focus "back"
        || containsSub focus "row" || containsSub focus "lat"
      then bumpKey m "pull" 0.3 else m
    let m := if containsSub focus "spine" || containsSub focus "back"
        || containsSub focus "spinal"
      then bumpKey m "spine" 0.25 else m
    let m := if containsSub focus "hips" || containsSub focus "hip"
        || containsSub focus "pelvis"
      then bumpKey m "hips" 0.25 else m
    let m := if containsSub focus "shoulder" || containsSub focus "shoulders"
      then bumpKey m "shoulders" 0.25 else m
    let m := if containsSub focus "cardio" || containsSub focus "hiit"
        || containsSub focus "interval"
      then bumpKey (bumpKey m "cardio" 0.4) "cns" 0.3 else m
    let m := if containsSub focus_attribute "coordination" || containsSub focus "coordination"
      then bumpKey m "coordination" 0.3 else m
    let m := if containsSub focus_attribute "speed" || containsSub focus "speed"
      then bumpKey m "speed" 0.3 else m
    let m := if containsSub focus_attribute "endurance" || containsSub focus "endurance"
      then bumpKey (bumpKey m "endurance" 0.3) "cardio" 0.2 else m
    let m := last_workout.exercises.foldl historyExerciseStep m
    { state with fatigue_scores := m }

/-- The post-supervisor pipeline of src/graph.py (`_after_supervisor`,
`_after_decay`, `build_graph`): decay runs when `ENABLE_DECAY`, then history
analysis when `ENABLE_HISTORY_ANALYZER`, then the `pre_route` gate.  The flags
are static configuration (src/feature_flags.py), passed here as parameters. -/
noncomputable def stages_after_supervisor (enableDecay enableHistory : Bool)
    (now : ℝ) (state : FitnessState ℝ) : FitnessState ℝ :=
  let s₁ := if enableDecay then decay_node now state else state
  if enableHistory then history_analysis_node s₁ else s₁

/-! ## Worker state deltas (src/agents/workers.py, src/agents/recovery_worker.py) -/

/-- `_fatigue_keys_for_workout` from src/agents/workers.py (lines 167-216):
scan the focus fields for keywords in a fixed order, dedup preserving first
occurrence, apply the per-field fallbacks, keep the single primary key.  This
version (unlike finalize_workout.py's) also maps `"back"` to `spine`. -/
def workers_fatigue_keys (w : Workout) : List String :=
  let focus_area := lowerStr w.focus_area
  let focus_system := lowerStr w.focus_system
  let focus_attribute := lowerStr w.focus_attribute
  let keys :=
    (if focus_area ≠ "" then
      (if containsSub focus_area "leg" || containsSub focus_area "squat"
          || containsSub focus_area "deadlift" then ["legs"] else [])
      ++ (if containsSub focus_area "push" || containsSub focus_area "chest"
          || containsSub focus_area "press" then ["push"] else [])
      ++ (if containsSub focus_area "pull" || containsSub focus_area "back"
          || containsSub focus_area "row" then ["pull"] else [])
      ++ (if containsSub focus_area "spine" || containsSub focus_area "back"
          then ["spine"] else [])
      ++ (if containsSub focus_area "hip" then ["hips"] else [])
      ++ (if containsSub focus_area "shoulder" then ["shoulders"] else [])
    else [])
    ++ (if focus_system ≠ "" then
      (if containsSub focus_system "cardio" || containsSub focus_system "metabolic"
          then ["cardio"] else [])
      ++ (if containsSub focus_system "cns" then ["cns"] else [])
    else [])
    ++ (if focus_attribute ≠ "" then
      (if containsSub focus_attribute "coordination" then ["coordination"] else [])
      ++ (if containsSub focus_attribute "speed" || containsSub focus_attribute "power"
          then ["speed"] else [])
      ++ (if containsSub focus_attribute "endurance" then ["endurance"] else [])
    else [])
  let out := dedupFirst keys []
  let out := if out.isEmpty && focus_area ≠ "" then
      [if containsSub focus_area "leg" then "legs"
       else if containsSub focus_area "push" then "push" else "pull"]
    else out
  let out := if out.isEmpty && focus_system ≠ "" then ["cardio"] else out
  let out := if out.isEmpty && focus_attribute ≠ "" then ["coordination"] else out
  out.take 1

/-- `apply_auto_fatigue` from src/agents/workers.py: `+0.5` on the primary
focus key, capped at 1.0; unchanged when no key is derived. -/
def apply_auto_fatigue [LinearOrderedField α] (current_fatigue : List (String × α))
    (daily_workout : Workout) : List (String × α) :=
  match workers_fatigue_keys daily_workout with
  | [] => current_fatigue
  | k :: _ => bumpKey current_fatigue k 0.5

/-- The state delta shared verbatim by `iron_worker`, `yoga_worker`,
`hiit_worker` and `kb_worker` (src/agents/workers.py, e.g. lines 277-294)
once the external generation call has produced `plan`: append the plan to
history, set `daily_workout`, increment the weekly counter, apply the
automatic `+0.5` focus fatigue. -/
def worker_update [LinearOrderedField α] (plan : Workout) (state : FitnessState α) :
    FitnessState α :=
  { state with
    daily_workout := some plan,
    workout_history := state.workout_history ++ [plan],
    workouts_completed_this_week := state.workouts_completed_this_week + 1,
    fatigue_scores := apply_auto_fatigue state.fatigue_scores plan }

/-- The state delta of `recovery_worker` (src/agents/recovery_worker.py lines
136-150): append the recovery plan to history, set `daily_workout`, and leave
`workouts_completed_this_week` unchanged (recovery does not count toward the
weekly limit). -/
def recovery_worker_update [LinearOrderedField α] (plan : Workout)
    (state : FitnessState α) : FitnessState α :=
  { state with
    daily_workout := some plan,
    workout_history := state.workout_history ++ [plan],
    workouts_completed_this_week := state.workouts_completed_this_week }

/-! ## Finalize / history aggregator (src/agents/finalize_workout.py) -/

/-- `_rpe_to_fatigue_delta`: `0.6` for RPE ≥ 8, `0.4` for RPE ≥ 5, else `0.2`
(constants `FATIGUE_RPE_HIGH/MID/LOW`). -/
def rpe_to_fatigue_delta [LinearOrderedField α] (rpe : α) : α :=
  if rpe ≥ 8 then 0.6
  else if rpe ≥ 5 then 0.4
  else 0.2

/-- The average RPE used by `compute_fatigue_from_logs` for one log: the mean
of the per-set RPEs, the stored `average_rpe` when there are no sets (and a
5.0 default for the vacuous no-RPE guard). -/
def avgRpeOfLog [LinearOrderedField α] (log : ExerciseLog α) : α :=
  if log.sets.isEmpty then log.average_rpe
  else
    let rpes := log.sets.map (fun s => s.rpe)
    if rpes.isEmpty then 5 else rpes.sum / (rpes.length : α)

/-- One iteration of the `for log in active_logs` loop of
`compute_fatigue_from_logs`: skip when the muscle group is blank, else add
the RPE-derived delta to that group, capped at 1.0. -/
def applyLogStep [LinearOrderedField α] (m : List (String × α))
    (log : ExerciseLog α) : List (String × α) :=
  let muscle_group := lowerStr (stripStr log.muscle_group)
  if muscle_group = "" then m
  else dictInsert m muscle_group
    (min 1 (dictGet m muscle_group 0 + rpe_to_fatigue_delta (avgRpeOfLog log)))

/-- `compute_fatigue_from_logs` from src/agents/finalize_workout.py. -/
def compute_fatigue_from_logs [LinearOrderedField α] (current_fatigue : List (String × α))
    (active_logs : List (ExerciseLog α)) : List (String × α) :=
  active_logs.foldl applyLogStep current_fatigue

/-- `_fatigue_keys_for_workout` from src/agents/finalize_workout.py (lines
30-73).  Same shape as the workers.py version but without the `"back" →
spine` clause. -/
def finalize_fatigue_keys (w : Workout) : List String :=
  let focus_area := lowerStr w.focus_area
  let focus_system := lowerStr w.focus_system
  let focus_attribute := lowerStr w.focus_attribute
  let keys :=
    (if focus_area ≠ "" then
      (if containsSub focus_area "leg" || containsSub focus_area "squat"
          || containsSub focus_area "deadlift" then ["legs"] else [])
      ++ (if containsSub focus_area "push" || containsSub focus_area "chest"
          || containsSub focus_area "press" then ["push"] else [])
      ++ (if containsSub focus_area "pull" || containsSub focus_area "back"
          || containsSub focus_area "row" then ["pull"] else [])
      ++ (if containsSub focus_area "spine" then ["spine"] else [])
      ++ (if containsSub focus_area "hip" then ["hips"] else [])
      ++ (if containsSub focus_area "shoulder" then ["shoulders"] else [])
    else [])
    ++ (if focus_system ≠ "" then
      (if containsSub focus_system "cardio" || containsSub focus_system "metabolic"
          then ["cardio"] else [])
      ++ (if containsSub focus_system "cns" then ["cns"] else [])
    else [])
    ++ (if focus_attribute ≠ "" then
      (if containsSub focus_attribute "coordination" then ["coordination"] else [])
      ++ (if containsSub focus_attribute "speed" || containsSub focus_attribute "power"
          then ["speed"] else [])
      ++ (if containsSub focus_attribute "endurance" then ["endurance"] else [])
    else [])
  let out := dedupFirst keys []
  let out := if out.isEmpty && focus_area ≠ "" then
      [if containsSub focus_area "leg" then "legs"
       else if containsSub focus_area "push" then "push" else "pull"]
    else out
  let out := if out.isEmpty && focus_system ≠ "" then ["cardio"] else out
  let out := if out.isEmpty && focus_attribute ≠ "" then ["coordination"] else out
  out.take 1

/-- `compute_default_fatigue` from src/agents/finalize_workout.py: flat `+0.5`
(capped at 1.0) on each derived key — at most one after `[:1]`. -/
def compute_default_fatigue [LinearOrderedField α] (current_fatigue : List (String × α))
    (daily_workout : Workout) : List (String × α) :=
  (finalize_fatigue_keys daily_workout).foldl
    (fun m k => dictInsert m k (min 1 (dictGet m k 0 + 0.5))) current_fatigue

/-- `finalize_workout_node` from src/agents/finalize_workout.py: with no plan
only clear the transient fields; with a plan append it to history, increment
the weekly counter, apply RPE-based (or default) fatigue, clear the logs. -/
def finalize_workout_node [LinearOrderedField α] (state : FitnessState α) :
    FitnessState α :=
  match state.daily_workout with
  | none => { state with active_logs := [], is_working_out := false }
  | some daily_workout =>
    let history := state.workout_history ++ [daily_workout]
    let workouts_completed := state.workouts_completed_this_week + 1
    let fatigue_scores :=
      if !state.active_logs.isEmpty then
        compute_fatigue_from_logs state.fatigue_scores state.active_logs
      else
        compute_default_fatigue state.fatigue_scores daily_workout
    { state with
      workout_history := history,
      workouts_completed_this_week := workouts_completed,
      fatigue_scores := fatigue_scores,
      active_logs := [],
      is_working_out := false }

/-! ## Graph topology after the workers (src/graph.py `build_graph`) -/

/-- The unconditional edges added after the worker slots (src/graph.py lines
169-175); `"END"` stands for LangGraph's `END`. -/
def worker_edges : List (String × String) :=
  [("iron_worker", "finalize_workout"), ("yoga_worker", "finalize_workout"),
   ("hiit_worker", "finalize_workout"), ("kb_worker", "finalize_workout"),
   ("finalize_workout", "END"), ("recovery_worker", "END")]

/-- `interrupt_after` of the compiled graph (src/graph.py line 185): execution
pauses after the four persona workers only. -/
def interrupt_after_nodes : List String :=
  ["iron_worker", "yoga_worker", "hiit_worker", "kb_worker"]

/-! ## Item identity (src/agents/workout_utils.py) and set logging -/

/-- The `enumerate` loop of `inject_exercise_ids`, setting
`item["id"] = "ex_" + str(i)` from a running index. -/
def injectAux (i : ℕ) : List Exercise → List Exercise
  | [] => []
  | e :: es => { e with id := "ex_" ++ toString i } :: injectAux (i + 1) es

/-- `inject_exercise_ids` from src/agents/workout_utils.py: stable positional
ids `ex_0, ex_1, …` on the `exercises`, `poses` and `activities` lists. -/
def inject_exercise_ids (w : Workout) : Workout :=
  { w with
    exercises := injectAux 0 w.exercises,
    poses := injectAux 0 w.poses,
    activities := injectAux 0 w.activities }

/-- The ordered item list of a plan (strength/HIIT/kickboxing plans populate
`exercises`, yoga `poses`, recovery `activities`; the others are empty). -/
def planItems (w : Workout) : List Exercise :=
  w.exercises ++ w.poses ++ w.activities

/-- The display name of an item (`exercise_name` or, for yoga, `pose_name`). -/
def itemName (e : Exercise) : String :=
  if e.exercise_name ≠ "" then e.exercise_name else e.pose_name

/-- Modelled from the spec: the id-resolving set-logging operation.  The
repository's current `WorkoutService.log_set` under src/ resolves only by
case-insensitive name, while its HTTP routes (src/backend/routes/workout.py),
websocket handler (src/backend/main.py) and tests all pass an `exercise_id`
and expect `ex_N`-and-beyond to be rejected; the id-resolving revision of the
service is not under src/.  Following spec §4.5 and §7: resolution by id takes
precedence over name, an id not carried by the current plan is rejected with
no state mutation, and so is a missing exercise reference or a name that
matches no item. -/
def log_set_model [LinearOrderedField α] (state : FitnessState α)
    (exercise_id : Option String) (exercise_name : Option String)
    (weight : α) (reps : ℕ) (rpe : α) : Except String (FitnessState α) :=
  match state.daily_workout with
  | none => .error "no active workout"
  | some w =>
    let items := planItems w
    let accept := fun (it : Exercise) =>
      Except.ok { state with
        active_logs := state.active_logs ++
          [{ exercise_name := itemName it, muscle_group := "",
             sets := [{ weight := weight, reps := reps, rpe := rpe }],
             average_rpe := rpe }] }
    match exercise_id with
    | some eid =>
      match items.find? (fun it => it.id == eid) with
      | some it => accept it
      | none => .error "unknown exercise id"
    | none =>
      match exercise_name with
      | some nm =>
        match items.find? (fun it => lowerStr (stripStr (itemName it))
            == lowerStr (stripStr nm)) with
        | some it => accept it
        | none => .error "unknown exercise name"
      | none => .error "missing exercise reference"

/-! ## Checkpoint recovery (src/graph.py `run_workout`, src/db_utils.py) -/

/-- A stored checkpoint record: either one that deserializes to a state under
the current schema, or a corrupted/incompatible one.  The corrupted record
keeps its raw payload (the fields the old record held) and the message of the
`KeyError` the engine raises when loading it. -/
inductive StoredRecord (α : Type) where
  | valid (s : FitnessState α)
  | corrupt (payload : FitnessState α) (err : String)

/-- `get_user_state` from src/db_utils.py as seen by `run_workout`: a valid
record yields its state; a record that fails to load is caught inside
`get_user_state` (and by the `except Exception: pass` around the merge) and
yields nothing. -/
def get_user_state (stored : Option (StoredRecord α)) : Option (FitnessState α) :=
  match stored with
  | some (.valid s) => some s
  | some (.corrupt _ _) => none
  | none => none

/-- The caller-supplied arguments of `run_workout`. -/
structure RunArgs (α : Type) where
  user_id : String
  persona : String
  goal : String
  fatigue_scores : List (String × α)
  messages : List (String × String)
  max_workouts_per_week : Option ℕ
  subscribed_personas : Option (List String)
  now : α

/-- The `initial_state` literal of `run_workout` (src/graph.py lines 316-340),
restricted to the modelled fields. -/
def mkInitialState [LinearOrderedField α] (a : RunArgs α) : FitnessState α :=
  { user_id := a.user_id
    selected_persona := a.persona
    next_node := ""
    is_onboarded := true
    subscribed_personas := a.subscribed_personas.getD []
    fatigue_scores := a.fatigue_scores
    last_session_timestamp := a.now
    workout_history := []
    max_workouts_per_week := a.max_workouts_per_week.getD 4
    workouts_completed_this_week := 0
    fatigue_threshold := 0.8
    messages := a.messages
    goal := a.goal
    daily_workout := none
    active_logs := []
    is_working_out := false }

/-- The merge of a successfully loaded record into `initial_state`
(src/graph.py lines 355-396): keep persisted history, fatigue (persisted keys
overwritten by the provided ones), safety settings and profile flags, but
force the new persona and clear the plan fields.  Python truthiness guards
(`if existing.get(...)`) become non-emptiness / non-zero tests. -/
def mergeExisting [LinearOrderedField α] (a : RunArgs α)
    (init existing : FitnessState α) : FitnessState α :=
  { init with
    workout_history :=
      if !existing.workout_history.isEmpty then existing.workout_history
      else init.workout_history,
    fatigue_scores :=
      if !existing.fatigue_scores.isEmpty then
        dictUnion existing.fatigue_scores a.fatigue_scores
      else init.fatigue_scores,
    max_workouts_per_week :=
      if existing.max_workouts_per_week ≠ 0 then existing.max_workouts_per_week
      else init.max_workouts_per_week,
    workouts_completed_this_week := existing.workouts_completed_this_week,
    fatigue_threshold :=
      if existing.fatigue_threshold ≠ 0 then existing.fatigue_threshold
      else init.fatigue_threshold,
    active_logs := existing.active_logs,
    selected_persona := a.persona,
    daily_workout := none,
    is_working_out := false,
    is_onboarded := existing.is_onboarded,
    subscribed_personas := existing.subscribed_personas }

/-- The `fresh_state` literal of the corruption-retry branch (src/graph.py
lines 414-436): built from the caller-supplied arguments only, with the
default weekly cap and no subscription merge. -/
def mkFreshState [LinearOrderedField α] (a : RunArgs α) : FitnessState α :=
  { user_id := a.user_id
    selected_persona := a.persona
    next_node := ""
    is_onboarded := true
    subscribed_personas := []
    fatigue_scores := a.fatigue_scores
    last_session_timestamp := a.now
    workout_history := []
    max_workouts_per_week := 4
    workouts_completed_this_week := 0
    fatigue_threshold := 0.8
    messages := a.messages
    goal := a.goal
    daily_workout := none
    active_logs := []
    is_working_out := false }

/-- `app.invoke` as `run_workout` observes it: invoking over a corrupted
checkpoint raises the stored `KeyError` message; otherwise the graph runs
(`run` abstracts one full graph execution, which involves the external
generation calls). -/
def appInvoke (run : FitnessState α → FitnessState α)
    (stored : Option (StoredRecord α)) (input : FitnessState α) :
    Except String (FitnessState α) :=
  match stored with
  | some (.corrupt _ err) => .error err
  | _ => .ok (run input)

/-- The corruption test of `run_workout` (src/graph.py line 408):
`err = str(e).lower()`, then `"step" in err or "pending_sends" in err or
"checkpoint" in err`. -/
def recognizedCorruption (e : String) : Bool :=
  let err := lowerStr e
  containsSub err "step" || containsSub err "pending_sends" || containsSub err "checkpoint"

/-- `run_workout` from src/graph.py, reduced to its load/merge/invoke/recover
skeleton: merge a loadable record into the initial state, invoke; on a
recognized corrupted-checkpoint `KeyError`, delete the record and retry with
the fresh overrides-only state; re-raise anything else. -/
def run_workout_model [LinearOrderedField α] (run : FitnessState α → FitnessState α)
    (stored : Option (StoredRecord α)) (a : RunArgs α) :
    Except String (FitnessState α) :=
  let init := mkInitialState a
  let input :=
    match get_user_state stored with
    | some existing => mergeExisting a init existing
    | none => init
  match appInvoke run stored input with
  | .ok r => .ok r
  | .error e =>
    if recognizedCorruption e then
      match appInvoke run none (mkFreshState a) with
      | .ok r => .ok r
      | .error e₂ => .error ("Failed to recover from corrupted checkpoint: " ++ e₂)
    else .error e

/-! ## Claim-side reading of the default-update precedence (spec §4.1)

The spec describes `defaultUpdate` as deriving one key from the focus tags by
a fixed precedence order — legs, push, pull, spine, hips, shoulders, cardio,
cns, coordination, speed, endurance — first match wins.  The next definitions
state that reading independently of the embedded key-scan, so the two can be
compared. -/

/-- Concatenate a singleton for every satisfied guard, in order. -/
def guardedKeys : List (String × Bool) → List String
  | [] => []
  | p :: ps => (if p.2 then [p.1] else []) ++ guardedKeys ps

/-- The spec's precedence list with each key's matching condition (the keyword
tests of finalize_workout.py, on the lowercased focus fields). -/
def finalizePrecedencePairs (w : Workout) : List (String × Bool) :=
  let fa := lowerStr w.focus_area
  let fs := lowerStr w.focus_system
  let ft := lowerStr w.focus_attribute
  [("legs", containsSub fa "leg" || containsSub fa "squat" || containsSub fa "deadlift"),
   ("push", containsSub fa "push" || containsSub fa "chest" || containsSub fa "press"),
   ("pull", containsSub fa "pull" || containsSub fa "back" || containsSub fa "row"),
   ("spine", containsSub fa "spine"),
   ("hips", containsSub fa "hip"),
   ("shoulders", containsSub fa "shoulder"),
   ("cardio", containsSub fs "cardio" || containsSub fs "metabolic"),
   ("cns", containsSub fs "cns"),
   ("coordination", containsSub ft "coordination"),
   ("speed", containsSub ft "speed" || containsSub ft "power"),
   ("endurance", containsSub ft "endurance")]

/-- First match of the precedence list, per the spec's words. -/
def firstPrecedenceMatch (w : Workout) : Option String :=
  ((finalizePrecedencePairs w).find? (fun p => p.2)).map (fun p => p.1)

/-! ## Concrete fixtures for witnesses and counterexamples -/

/-- A session state with the standard defaults of `run_workout`
(src/graph.py): cap 4, threshold 0.8, nothing pending. -/
def baseState (α : Type) [LinearOrderedField α] : FitnessState α :=
  { user_id := "u1"
    selected_persona := "iron"
    next_node := ""
    is_onboarded := true
    subscribed_personas := []
    fatigue_scores := []
    last_session_timestamp := 0
    workout_history := []
    max_workouts_per_week := 4
    workouts_completed_this_week := 0
    fatigue_threshold := 0.8
    messages := []
    goal := "Build strength"
    daily_workout := none
    active_logs := []
    is_working_out := false }

/-- A routing decision the external reasoning call could return. -/
def sampleDecision (α : Type) [LinearOrderedField α] : SupervisorDecision α :=
  { next_node := "iron_worker", selected_persona := "iron", fatigue_updates := [] }

/-- A two-item strength plan with a leg focus. -/
def ironPlanEx : Workout :=
  { focus_area := "legs",
    exercises := [{ exercise_name := "Back Squat" }, { exercise_name := "Leg Press" }] }

/-- A recovery plan: `RecoveryPlan` dicts carry `recovery_focus` and
`activities` but none of the three focus keys the fatigue derivations read. -/
def recoveryPlanEx : Workout :=
  { activities := [{ exercise_name := "Easy walk" }] }

/-- A paused session holding the strength plan. -/
def pausedIronState : FitnessState ℚ :=
  { baseState ℚ with daily_workout := some ironPlanEx, is_working_out := true }

/-- A paused session holding the recovery plan. -/
def pausedRecoveryState : FitnessState ℚ :=
  { baseState ℚ with daily_workout := some recoveryPlanEx, is_working_out := true }

/-- A user subscribed to yoga only, with the weekly cap reached, whose current
persona is still iron. -/
def cappedYogaOnlyState : FitnessState ℚ :=
  { baseState ℚ with
    subscribed_personas := ["yoga"],
    workouts_completed_this_week := 4 }

/-- A yoga/hiit subscriber with an empty conversation. -/
def yogaHiitState : FitnessState ℚ :=
  { baseState ℚ with subscribed_personas := ["yoga", "hiit"] }

/-- A real-valued state with the weekly cap reached (noncomputable only
because `ℝ` carries no executable arithmetic). -/
noncomputable def cappedStateR : FitnessState ℝ :=
  { baseState ℝ with workouts_completed_this_week := 4 }

/-- Spec Scenario A's state: legs fatigue 0.85 against the 0.8 threshold, one
of four weekly workouts used. -/
noncomputable def overThresholdState : FitnessState ℝ :=
  { baseState ℝ with
    fatigue_scores := [("legs", 0.85)],
    workouts_completed_this_week := 1 }

/-- The strength plan with ids injected, held by a paused session. -/
def loggedIronState : FitnessState ℚ :=
  { baseState ℚ with
    daily_workout := some (inject_exercise_ids ironPlanEx),
    is_working_out := true }

/-- A log of one heavy squat set (average RPE 8). -/
def squatLogEx : ExerciseLog ℚ :=
  { exercise_name := "Back Squat", muscle_group := "legs",
    sets := [{ weight := 100, reps := 5, rpe := 8 }], average_rpe := 8 }

/-- Caller arguments for `run_workout`. -/
def sampleRunArgs : RunArgs ℚ :=
  { user_id := "u1"
    persona := "iron"
    goal := "Build strength"
    fatigue_scores := [("legs", 0.3)]
    messages := [("user", "workout please")]
    max_workouts_per_week := none
    subscribed_personas := none
    now := 0 }

/-- A stored payload that no longer matches the schema. -/
def stalePayload : FitnessState ℚ :=
  { baseState ℚ with fatigue_scores := [("legs", 1)], workouts_completed_this_week := 9 }

/-- A second, different stale payload. -/
def stalePayload' : FitnessState ℚ :=
  { baseState ℚ with goal := "old goal", workouts_completed_this_week := 2 }

/-- The spec's reading of `defaultUpdate`'s key scan, for comparison with the
embedded `finalize_fatigue_keys`: dedup the precedence matches, apply the
three fallbacks, keep one key. -/
def keysFromPairs (w : Workout) : List String :=
  let fa := lowerStr w.focus_area
  let fs := lowerStr w.focus_system
  let ft := lowerStr w.focus_attribute
  let out := dedupFirst (guardedKeys (finalizePrecedencePairs w)) []
  let out := if out.isEmpty && fa ≠ "" then
      [if containsSub fa "leg" then "legs"
       else if containsSub fa "push" then "push" else "pull"]
    else out
  let out := if out.isEmpty && fs ≠ "" then ["cardio"] else out
  let out := if out.isEmpty && ft ≠ "" then ["coordination"] else out
  out.take 1

/-! # Theorems -/

/-! ## Association-list lemmas -/

theorem dictGet_insert_self [BEq κ] [LawfulBEq κ] (m : List (κ × α)) (k : κ) (v d : α) :
    dictGet (dictInsert m k v) k d = v := by
  induction m with
  | nil => simp [dictGet, dictInsert, List.find?]
  | cons p rest ih =>
    cases hbeq : p.1 == k with
    | true => simp [dictGet, dictInsert, hbeq, List.find?]
    | false =>
      simp only [dictInsert, hbeq, Bool.false_eq_true, if_false]
      simpa [dictGet, List.find?, hbeq] using ih

theorem dictGet_insert_ne [BEq κ] [LawfulBEq κ] (m : List (κ × α)) (k k' : κ) (v d : α)
    (h : k' ≠ k) : dictGet (dictInsert m k v) k' d = dictGet m k' d := by
  induction m with
  | nil =>
    simp [dictGet, dictInsert, List.find?,
      show (k == k') = false from beq_eq_false_iff_ne.mpr (Ne.symm h)]
  | cons p rest ih =>
    cases hbeq : p.1 == k with
    | true =>
      have hp : p.1 = k := eq_of_beq hbeq
      simp [dictGet, dictInsert, hbeq, List.find?,
        show (k == k') = false from beq_eq_false_iff_ne.mpr (Ne.symm h),
        show (p.1 == k') = false from beq_eq_false_iff_ne.mpr (by rw [hp]; exact Ne.symm h)]
    | false =>
      cases hbeq' : p.1 == k' with
      | true => simp [dictGet, dictInsert, hbeq, hbeq', List.find?]
      | false =>
        simp only [dictInsert, hbeq, Bool.false_eq_true, if_false]
        simpa [dictGet, List.find?, hbeq'] using ih

/-! ## The optional stages do not touch the safety settings -/

theorem history_analysis_preserves [LinearOrderedField α] (s : FitnessState α) :
    (history_analysis_node s).workouts_completed_this_week = s.workouts_completed_this_week
    ∧ (history_analysis_node s).max_workouts_per_week = s.max_workouts_per_week
    ∧ (history_analysis_node s).fatigue_threshold = s.fatigue_threshold
    ∧ (history_analysis_node s).next_node = s.next_node := by
  cases h : s.workout_history.getLast? <;> simp [history_analysis_node, h]

theorem stages_preserve_caps (eD eH : Bool) (now : ℝ) (s : FitnessState ℝ) :
    (stages_after_supervisor eD eH now s).workouts_completed_this_week
        = s.workouts_completed_this_week
    ∧ (stages_after_supervisor eD eH now s).max_workouts_per_week = s.max_workouts_per_week
    ∧ (stages_after_supervisor eD eH now s).fatigue_threshold = s.fatigue_threshold
    ∧ (stages_after_supervisor eD eH now s).next_node = s.next_node := by
  cases eD <;> cases eH
  · exact ⟨rfl, rfl, rfl, rfl⟩
  · exact history_analysis_preserves s
  · exact ⟨rfl, rfl, rfl, rfl⟩
  · have h₁ := history_analysis_preserves (decay_node now s)
    exact ⟨h₁.1, h₁.2.1, h₁.2.2.1, h₁.2.2.2⟩

/-- C1: if the weekly cap is reached, the supervisor ends the session for any
message, fatigue map and external decision, and the routing gate also returns
`end` on the state produced by whichever optional stages ran. -/
theorem frequency_cap_forces_end (s : FitnessState ℝ) (d : SupervisorDecision ℝ)
    (eD eH : Bool) (now : ℝ)
    (h : s.max_workouts_per_week ≤ s.workouts_completed_this_week) :
    (supervisor_node s d).next_node = "end"
    ∧ route_after_supervisor (stages_after_supervisor eD eH now s) = "end" := by
  constructor
  · simp [supervisor_node, ge_iff_le, h]
  · have hp := stages_preserve_caps eD eH now s
    simp [route_after_supervisor, ge_iff_le, hp.1, hp.2.1, h]

/-- Witness for C1 at a concrete state (cap 4 reached). -/
theorem frequency_cap_forces_end_witness :
    (supervisor_node cappedStateR (sampleDecision ℝ)).next_node = "end"
    ∧ route_after_supervisor (stages_after_supervisor true true 0 cappedStateR) = "end" :=
  frequency_cap_forces_end cappedStateR (sampleDecision ℝ) true true 0 (by decide)

/-- C2: below the weekly cap, a maximal fatigue value strictly above the
threshold forces `recovery_worker` — at the supervisor for any message and
decision, and at the routing gate for the fatigue values current after the
optional stages (so a value the stages pushed over threshold still dispatches
the recovery worker). -/
theorem fatigue_over_threshold_forces_recovery (s : FitnessState ℝ)
    (d : SupervisorDecision ℝ) (eD eH : Bool) (now : ℝ)
    (h₁ : s.workouts_completed_this_week < s.max_workouts_per_week) :
    (maxValues s.fatigue_scores > s.fatigue_threshold →
      (supervisor_node s d).next_node = "recovery_worker")
    ∧ (maxValues (stages_after_supervisor eD eH now s).fatigue_scores > s.fatigue_threshold →
      route_after_supervisor (stages_after_supervisor eD eH now s) = "recovery_worker") := by
  constructor
  · intro h₂
    simp [supervisor_node, ge_iff_le, h₁.not_le, h₂]
  · intro h₂
    have hp := stages_preserve_caps eD eH now s
    simp [route_after_supervisor, ge_iff_le, hp.1, hp.2.1, hp.2.2.1, h₁.not_le, h₂]

theorem overThreshold_gt :
    maxValues overThresholdState.fatigue_scores > overThresholdState.fatigue_threshold := by
  norm_num [overThresholdState, baseState, maxValues]

theorem overThreshold_staged_gt :
    maxValues (stages_after_supervisor true true 0 overThresholdState).fatigue_scores
      > overThresholdState.fatigue_threshold := by
  have h0 : ((0 : ℝ) - overThresholdState.last_session_timestamp) / 3600 = 0 := by
    norm_num [overThresholdState, baseState]
  simp only [stages_after_supervisor, if_true, decay_node, overThresholdState, baseState,
    history_analysis_node, h0]
  norm_num [maxValues, decayValue, Real.rpow_zero]

/-- Witness for C2 at Scenario A's state (legs 0.85 over threshold 0.8, cap
not reached): both over-threshold antecedents hold and both routing results
are `recovery_worker`. -/
theorem fatigue_over_threshold_forces_recovery_witness :
    maxValues overThresholdState.fatigue_scores > overThresholdState.fatigue_threshold
    ∧ (supervisor_node overThresholdState (sampleDecision ℝ)).next_node = "recovery_worker"
    ∧ maxValues (stages_after_supervisor true true 0 overThresholdState).fatigue_scores
        > overThresholdState.fatigue_threshold
    ∧ route_after_supervisor (stages_after_supervisor true true 0 overThresholdState)
        = "recovery_worker" :=
  ⟨overThreshold_gt,
   (fatigue_over_threshold_forces_recovery overThresholdState (sampleDecision ℝ) true true 0
      (by decide)).1 overThreshold_gt,
   overThreshold_staged_gt,
   (fatigue_over_threshold_forces_recovery overThresholdState (sampleDecision ℝ) true true 0
      (by decide)).2 overThreshold_staged_gt⟩

/-! ## Persona-subscription constraint (C5) -/

theorem pickLoop_mem (allowed : List String) :
    ∀ (l : List String) (r : String × String), pickLoop allowed l = some r → r.2 ∈ l := by
  intro l
  induction l with
  | nil => intro r hr; simp [pickLoop] at hr
  | cons p rest ih =>
    intro r hr
    simp only [pickLoop] at hr
    cases hw : persona_to_worker p with
    | none =>
      simp only [hw] at hr
      exact List.mem_cons_of_mem _ (ih r hr)
    | some w =>
      simp only [hw] at hr
      by_cases ha : allowed.contains w = true
      · rw [if_pos ha] at hr
        cases hr
        exact List.mem_cons_self _ _
      · rw [if_neg ha] at hr
        exact List.mem_cons_of_mem _ (ih r hr)

theorem pickFromSubscribed_mem (subscribed : List String) (current : String)
    (allowed : List String) (h : subscribed ≠ []) :
    (pickFromSubscribed subscribed current allowed).2 ∈ subscribed := by
  unfold pickFromSubscribed
  by_cases hc : subscribed.contains current = true
  · by_cases ha : allowed.contains ((persona_to_worker current).getD "iron_worker") = true
    · simp only [hc, ha, if_true]
      simpa using hc
    · simp only [hc, ha, if_true, Bool.false_eq_true, if_false]
      cases hp : pickLoop allowed subscribed with
      | some r => exact pickLoop_mem allowed subscribed r hp
      | none =>
        cases subscribed with
        | nil => exact absurd rfl h
        | cons q qs => exact List.mem_cons_self _ _
  · simp only [hc, Bool.false_eq_true, if_false]
    cases hp : pickLoop allowed subscribed with
    | some r => exact pickLoop_mem allowed subscribed r hp
    | none =>
      cases subscribed with
      | nil => exact absurd rfl h
      | cons q qs => exact List.mem_cons_self _ _

/-- C5 (amended): with a non-empty subscription set, the supervisor's persona
lies in that set on every branch that dispatches a worker: the empty
conversation default, the no-reasoning fast path, and the external-decision
path (where an out-of-set persona is overridden to the first subscribed one).
The frequency-end, fatigue-recovery and question branches are excluded — they
echo the current persona unchanged (see the counterexample). -/
theorem router_persona_subscribed_on_dispatch [LinearOrderedField α]
    (s : FitnessState α) (d : SupervisorDecision α)
    (hsub : s.subscribed_personas ≠ [])
    (h₁ : s.workouts_completed_this_week < s.max_workouts_per_week)
    (h₂ : maxValues s.fatigue_scores ≤ s.fatigue_threshold)
    (h₃ : ¬(s.messages ≠ [] ∧ is_question (lastUserMessage s.messages) = true)) :
    (supervisor_node s d).selected_persona ∈ s.subscribed_personas := by
  unfold supervisor_node
  rw [if_neg (not_le.mpr h₁), if_neg (not_lt.mpr h₂)]
  by_cases hm : s.messages.isEmpty = true
  · simp only [hm, if_true]
    exact pickFromSubscribed_mem _ _ _ hsub
  · simp only [hm, Bool.false_eq_true, if_false]
    have hmne : s.messages ≠ [] := by
      intro hnil
      rw [hnil] at hm
      exact hm rfl
    have hq : is_question (lastUserMessage s.messages) = false := by
      cases hqq : is_question (lastUserMessage s.messages) with
      | false => rfl
      | true => exact absurd ⟨hmne, hqq⟩ h₃
    rw [hq]
    simp only [Bool.false_eq_true, if_false]
    by_cases hr : needs_llm_reasoning (lastUserMessage s.messages) = true
    · simp only [hr, Bool.not_true, Bool.false_eq_true, if_false]
      by_cases hcont : s.subscribed_personas.contains d.selected_persona = true
      · simp only [hcont, Bool.not_true, Bool.and_false, Bool.false_eq_true, if_false]
        simpa using hcont
      · have hne : s.subscribed_personas.isEmpty = false := by
          cases hh : s.subscribed_personas.isEmpty
          · rfl
          · exact absurd (List.isEmpty_iff.mp hh) hsub
        have hcf : s.subscribed_personas.contains d.selected_persona = false := by
          cases hh : s.subscribed_personas.contains d.selected_persona
          · rfl
          · exact absurd hh hcont
        simp only [hne, hcf, Bool.not_false, Bool.and_true, Bool.not_true, if_true]
        cases hs : s.subscribed_personas with
        | nil => exact absurd hs hsub
        | cons q qs => simp [hs]
    · have hrf : needs_llm_reasoning (lastUserMessage s.messages) = false := by
        cases hh : needs_llm_reasoning (lastUserMessage s.messages)
        · rfl
        · exact absurd hh hr
      simp only [hrf, Bool.not_false, if_true]
      exact pickFromSubscribed_mem _ _ _ hsub

theorem yogaHiit_fatigue_le_threshold :
    maxValues yogaHiitState.fatigue_scores ≤ yogaHiitState.fatigue_threshold := by
  norm_num [yogaHiitState, baseState, maxValues]

/-- Witness for C5's amended theorem: a yoga/hiit subscriber whose current
persona is iron, with an empty conversation — the router picks a subscribed
persona. -/
theorem router_persona_subscribed_on_dispatch_witness :
    (supervisor_node yogaHiitState (sampleDecision ℚ)).selected_persona
      ∈ yogaHiitState.subscribed_personas :=
  router_persona_subscribed_on_dispatch yogaHiitState (sampleDecision ℚ)
    (by decide) (by decide) yogaHiit_fatigue_le_threshold (by decide)

/-- Counterexample to C5 as stated: on the frequency-override branch the
router returns the current persona even when it is outside the non-empty
subscription set (yoga-only subscriber, current persona iron, cap reached). -/
theorem router_persona_escapes_subscribed_counterexample :
    cappedYogaOnlyState.subscribed_personas ≠ [] ∧
    (supervisor_node cappedYogaOnlyState (sampleDecision ℚ)).next_node = "end" ∧
    (supervisor_node cappedYogaOnlyState (sampleDecision ℚ)).selected_persona
      ∉ cappedYogaOnlyState.subscribed_personas := by
  decide

/-! ## Finalize behaviour and the recovery path (C3) -/

/-- C3 (amended): finalizing any paused session with a current plan appends
exactly that plan to history, clears the logs, and increments the weekly
counter unconditionally — it does not distinguish recovery plans.  Recovery
sessions avoid the increment differently: `recovery_worker` leaves the counter
unchanged and its graph edge goes straight to `END`, bypassing
`finalize_workout` (which the four persona workers feed into). -/
theorem finalize_appends_history_and_clears_logs [LinearOrderedField α]
    (s : FitnessState α) (w : Workout) (h : s.daily_workout = some w) :
    (finalize_workout_node s).workout_history = s.workout_history ++ [w]
    ∧ (finalize_workout_node s).workout_history.length = s.workout_history.length + 1
    ∧ (finalize_workout_node s).active_logs = []
    ∧ (finalize_workout_node s).workouts_completed_this_week
        = s.workouts_completed_this_week + 1
    ∧ (recovery_worker_update w s).workouts_completed_this_week
        = s.workouts_completed_this_week
    ∧ worker_edges.lookup "recovery_worker" = some "END"
    ∧ worker_edges.lookup "iron_worker" = some "finalize_workout"
    ∧ worker_edges.lookup "yoga_worker" = some "finalize_workout"
    ∧ worker_edges.lookup "hiit_worker" = some "finalize_workout"
    ∧ worker_edges.lookup "kb_worker" = some "finalize_workout"
    ∧ "recovery_worker" ∉ interrupt_after_nodes := by
  refine ⟨?_, ?_, ?_, ?_, ?_, by decide, by decide, by decide, by decide, by decide, by decide⟩
  all_goals simp [finalize_workout_node, recovery_worker_update, h]

/-- Witness for C3's amended theorem at a paused strength session. -/
theorem finalize_appends_history_and_clears_logs_witness :
    (finalize_workout_node pausedIronState).workout_history
        = pausedIronState.workout_history ++ [ironPlanEx]
    ∧ (finalize_workout_node pausedIronState).workout_history.length
        = pausedIronState.workout_history.length + 1
    ∧ (finalize_workout_node pausedIronState).active_logs = []
    ∧ (finalize_workout_node pausedIronState).workouts_completed_this_week
        = pausedIronState.workouts_completed_this_week + 1
    ∧ (recovery_worker_update ironPlanEx pausedIronState).workouts_completed_this_week
        = pausedIronState.workouts_completed_this_week
    ∧ worker_edges.lookup "recovery_worker" = some "END"
    ∧ worker_edges.lookup "iron_worker" = some "finalize_workout"
    ∧ worker_edges.lookup "yoga_worker" = some "finalize_workout"
    ∧ worker_edges.lookup "hiit_worker" = some "finalize_workout"
    ∧ worker_edges.lookup "kb_worker" = some "finalize_workout"
    ∧ "recovery_worker" ∉ interrupt_after_nodes :=
  finalize_appends_history_and_clears_logs pausedIronState ironPlanEx rfl

/-- Counterexample to C3 as stated: `finalize_workout_node` increments the
weekly counter for a recovery plan too — had a recovery plan been finalized,
it would have been counted, contradicting "workouts_completed_this_week is
incremented exactly for persona-worker plans and not for recovery plans". -/
theorem finalize_increments_for_recovery_plan_counterexample :
    pausedRecoveryState.daily_workout = some recoveryPlanEx
    ∧ (finalize_workout_node pausedRecoveryState).workouts_completed_this_week
        = pausedRecoveryState.workouts_completed_this_week + 1 := by
  decide

/-! ## Worker deltas double-count one cycle (C4) -/

/-- C4: the state delta every persona worker returns at generation time
already appends the plan to history, bumps the weekly counter and adds the
capped `+0.5` to the plan's primary focus group; composing it with
`finalize_workout_node` (as the graph does on resume) therefore appends the
same plan twice and raises the counter by 2. -/
theorem worker_delta_double_count [LinearOrderedField α] (s : FitnessState α)
    (plan : Workout) (k : String) (h : workers_fatigue_keys plan = [k]) :
    (worker_update plan s).daily_workout = some plan
    ∧ (worker_update plan s).workout_history = s.workout_history ++ [plan]
    ∧ (worker_update plan s).workouts_completed_this_week
        = s.workouts_completed_this_week + 1
    ∧ (worker_update plan s).fatigue_scores
        = dictInsert s.fatigue_scores k (min 1 (dictGet s.fatigue_scores k 0 + 0.5))
    ∧ (finalize_workout_node (worker_update plan s)).workout_history
        = s.workout_history ++ [plan, plan]
    ∧ (finalize_workout_node (worker_update plan s)).workouts_completed_this_week
        = s.workouts_completed_this_week + 2 := by
  refine ⟨rfl, rfl, rfl, ?_, ?_, ?_⟩
  · simp [worker_update, apply_auto_fatigue, h, bumpKey]
  · simp [finalize_workout_node, worker_update]
  · simp [finalize_workout_node, worker_update]

/-- Witness for C4 at a leg-focused strength plan (`primary key "legs"`). -/
theorem worker_delta_double_count_witness :
    (worker_update ironPlanEx (baseState ℚ)).daily_workout = some ironPlanEx
    ∧ (worker_update ironPlanEx (baseState ℚ)).workout_history
        = (baseState ℚ).workout_history ++ [ironPlanEx]
    ∧ (worker_update ironPlanEx (baseState ℚ)).workouts_completed_this_week
        = (baseState ℚ).workouts_completed_this_week + 1
    ∧ (worker_update ironPlanEx (baseState ℚ)).fatigue_scores
        = dictInsert (baseState ℚ).fatigue_scores "legs"
            (min 1 (dictGet (baseState ℚ).fatigue_scores "legs" 0 + 0.5))
    ∧ (finalize_workout_node (worker_update ironPlanEx (baseState ℚ))).workout_history
        = (baseState ℚ).workout_history ++ [ironPlanEx, ironPlanEx]
    ∧ (finalize_workout_node (worker_update ironPlanEx (baseState ℚ))).workouts_completed_this_week
        = (baseState ℚ).workouts_completed_this_week + 2 :=
  worker_delta_double_count (baseState ℚ) ironPlanEx "legs" (by decide)

/-! ## Stable item ids and id-based logging (C6) -/

theorem injectAux_ids (l : List Exercise) :
    ∀ n, (injectAux n l).map (fun e => e.id)
      = (List.range' n l.length).map (fun i => "ex_" ++ toString i) := by
  induction l with
  | nil => intro n; simp [injectAux]
  | cons e es ih =>
    intro n
    simp only [injectAux, List.map_cons, List.length_cons, List.range'_succ]
    exact congrArg _ (ih (n + 1))

/-- C6: ids injected into a plan's ordered item lists are exactly
`ex_0 … ex_{N-1}`; against such a plan, logging with an id the plan does not
carry is rejected (`error`, no successor state), the name argument is ignored
whenever an id is supplied (id precedence), and every id the plan carries
resolves. -/
theorem exercise_ids_and_out_of_range_rejection [LinearOrderedField α]
    (w : Workout) (s : FitnessState α) (eid : String) (nm nm' : Option String)
    (weight : α) (reps : ℕ) (rpe : α)
    (hs : s.daily_workout = some (inject_exercise_ids w)) :
    ((inject_exercise_ids w).exercises.map (fun e => e.id)
        = (List.range w.exercises.length).map (fun i => "ex_" ++ toString i))
    ∧ ((inject_exercise_ids w).poses.map (fun e => e.id)
        = (List.range w.poses.length).map (fun i => "ex_" ++ toString i))
    ∧ ((inject_exercise_ids w).activities.map (fun e => e.id)
        = (List.range w.activities.length).map (fun i => "ex_" ++ toString i))
    ∧ (eid ∉ (planItems (inject_exercise_ids w)).map (fun e => e.id) →
        log_set_model s (some eid) nm weight reps rpe
          = Except.error "unknown exercise id")
    ∧ log_set_model s (some eid) nm weight reps rpe
        = log_set_model s (some eid) nm' weight reps rpe
    ∧ (eid ∈ (planItems (inject_exercise_ids w)).map (fun e => e.id) →
        ∃ s', log_set_model s (some eid) nm weight reps rpe = Except.ok s') := by
  refine ⟨?_, ?_, ?_, ?_, ?_, ?_⟩
  · rw [List.range_eq_range']
    exact injectAux_ids w.exercises 0
  · rw [List.range_eq_range']
    exact injectAux_ids w.poses 0
  · rw [List.range_eq_range']
    exact injectAux_ids w.activities 0
  · intro hnot
    have hfind : (planItems (inject_exercise_ids w)).find? (fun it => it.id == eid) = none := by
      rw [List.find?_eq_none]
      intro x hx hbeq
      have hxe : x.id = eid := by simpa using hbeq
      exact hnot (hxe ▸ List.mem_map_of_mem (fun e => e.id) hx)
    simp [log_set_model, hs, hfind]
  · simp [log_set_model, hs]
  · intro hmem
    obtain ⟨x, hx, hxid⟩ := List.mem_map.mp hmem
    have hsome : ((planItems (inject_exercise_ids w)).find? (fun it => it.id == eid)).isSome := by
      rw [List.find?_isSome]
      exact ⟨x, hx, by simp [hxid]⟩
    cases hfind : (planItems (inject_exercise_ids w)).find? (fun it => it.id == eid) with
    | none => rw [hfind] at hsome; simp at hsome
    | some it =>
      refine ⟨{ s with active_logs := s.active_logs ++
          [{ exercise_name := itemName it, muscle_group := "",
             sets := [{ weight := weight, reps := reps, rpe := rpe }],
             average_rpe := rpe }] }, ?_⟩
      simp [log_set_model, hs, hfind]

/-- Witness for C6: the two-item strength plan gets ids `ex_0, ex_1`, and a
log against `ex_2` is rejected. -/
theorem exercise_ids_and_out_of_range_rejection_witness :
    ((inject_exercise_ids ironPlanEx).exercises.map (fun e => e.id)
        = (List.range ironPlanEx.exercises.length).map (fun i => "ex_" ++ toString i))
    ∧ ((inject_exercise_ids ironPlanEx).poses.map (fun e => e.id)
        = (List.range ironPlanEx.poses.length).map (fun i => "ex_" ++ toString i))
    ∧ ((inject_exercise_ids ironPlanEx).activities.map (fun e => e.id)
        = (List.range ironPlanEx.activities.length).map (fun i => "ex_" ++ toString i))
    ∧ ("ex_2" ∉ (planItems (inject_exercise_ids ironPlanEx)).map (fun e => e.id) →
        log_set_model loggedIronState (some "ex_2") none (100 : ℚ) 5 8
          = Except.error "unknown exercise id")
    ∧ log_set_model loggedIronState (some "ex_2") none (100 : ℚ) 5 8
        = log_set_model loggedIronState (some "ex_2") (some "Back Squat") (100 : ℚ) 5 8
    ∧ ("ex_2" ∈ (planItems (inject_exercise_ids ironPlanEx)).map (fun e => e.id) →
        ∃ s', log_set_model loggedIronState (some "ex_2") none (100 : ℚ) 5 8
          = Except.ok s') :=
  exercise_ids_and_out_of_range_rejection ironPlanEx loggedIronState "ex_2" none
    (some "Back Squat") 100 5 8 rfl

/-! ## Time-based decay (C7) -/

theorem decayValue_one_nat (n : ℕ) : decayValue 1 (n : ℝ) = (0.97 : ℝ) ^ n := by
  rw [decayValue, one_mul, Real.rpow_natCast]
  exact max_eq_right (by positivity)

/-- C7: on every fatigue entry `decay_node` applies exactly
`v ↦ max(0, v · 0.97^h)` with `h = (now − lastSession)/3600`, and refreshes the
timestamp to `now`; the per-value map is nonnegative and monotone
non-increasing in the elapsed hours, and the retention ratio is ≈0.48 after
24h, ≈0.23 after 48h and ≈0.11 after 72h (within ±0.01). -/
theorem decay_formula_monotone_and_ratio (s : FitnessState ℝ) (now v h₁ h₂ : ℝ)
    (hv : 0 ≤ v) (hh : h₁ ≤ h₂) :
    (decay_node now s).fatigue_scores
        = s.fatigue_scores.map
            (fun p => (p.1, decayValue p.2 ((now - s.last_session_timestamp) / 3600)))
    ∧ (decay_node now s).last_session_timestamp = now
    ∧ 0 ≤ decayValue v h₂
    ∧ decayValue v h₂ ≤ decayValue v h₁
    ∧ (0.47 < decayValue 1 24 ∧ decayValue 1 24 < 0.49)
    ∧ (0.22 < decayValue 1 48 ∧ decayValue 1 48 < 0.24)
    ∧ (0.10 < decayValue 1 72 ∧ decayValue 1 72 < 0.12) := by
  have hpow : ∀ y z : ℝ, y ≤ z → (0.97 : ℝ) ^ z ≤ (0.97 : ℝ) ^ y := by
    intro y z hyz
    exact Real.rpow_le_rpow_of_exponent_ge (by norm_num) (by norm_num) hyz
  have h24 : decayValue 1 24 = (0.97 : ℝ) ^ (24 : ℕ) := by
    rw [show (24 : ℝ) = ((24 : ℕ) : ℝ) by norm_num, decayValue_one_nat]
  have h48 : decayValue 1 48 = (0.97 : ℝ) ^ (48 : ℕ) := by
    rw [show (48 : ℝ) = ((48 : ℕ) : ℝ) by norm_num, decayValue_one_nat]
  have h72 : decayValue 1 72 = (0.97 : ℝ) ^ (72 : ℕ) := by
    rw [show (72 : ℝ) = ((72 : ℕ) : ℝ) by norm_num, decayValue_one_nat]
  refine ⟨rfl, rfl, le_max_left 0 _, ?_, ?_, ?_, ?_⟩
  · exact max_le_max le_rfl (mul_le_mul_of_nonneg_left (hpow h₁ h₂ hh) hv)
  · rw [h24]; constructor <;> norm_num
  · rw [h48]; constructor <;> norm_num
  · rw [h72]; constructor <;> norm_num

/-- Witness for C7 at `v = 0`, `h₁ = h₂ = 0` and the default real state. -/
theorem decay_formula_monotone_and_ratio_witness :
    (decay_node 0 (baseState ℝ)).fatigue_scores
        = (baseState ℝ).fatigue_scores.map
            (fun p => (p.1, decayValue p.2 ((0 - (baseState ℝ).last_session_timestamp) / 3600)))
    ∧ (decay_node 0 (baseState ℝ)).last_session_timestamp = 0
    ∧ (0 : ℝ) ≤ decayValue 0 0
    ∧ decayValue 0 0 ≤ decayValue 0 0
    ∧ (0.47 < decayValue 1 24 ∧ decayValue 1 24 < 0.49)
    ∧ (0.22 < decayValue 1 48 ∧ decayValue 1 48 < 0.24)
    ∧ (0.10 < decayValue 1 72 ∧ decayValue 1 72 < 0.12) :=
  decay_formula_monotone_and_ratio (baseState ℝ) 0 0 0 0 (le_refl 0) (le_refl 0)

/-! ## RPE-based fatigue update (C8) -/

theorem applyLogStep_preserves_le_one [LinearOrderedField α]
    (m : List (String × α)) (log : ExerciseLog α) (k : String)
    (h : dictGet m k 0 ≤ 1) : dictGet (applyLogStep m log) k 0 ≤ 1 := by
  by_cases hmg : lowerStr (stripStr log.muscle_group) = ""
  · simpa [applyLogStep, hmg] using h
  · by_cases hk : k = lowerStr (stripStr log.muscle_group)
    · subst hk
      simp only [applyLogStep, hmg, if_false]
      rw [dictGet_insert_self]
      exact min_le_left _ _
    · simp only [applyLogStep, hmg, if_false]
      rw [dictGet_insert_ne _ _ _ _ _ hk]
      exact h

theorem foldl_applyLog_preserves_le_one [LinearOrderedField α]
    (logs : List (ExerciseLog α)) :
    ∀ (m : List (String × α)) (k : String), dictGet m k 0 ≤ 1 →
      dictGet (logs.foldl applyLogStep m) k 0 ≤ 1 := by
  induction logs with
  | nil => intro m k h; simpa using h
  | cons log rest ih =>
    intro m k h
    simpa using ih (applyLogStep m log) k (applyLogStep_preserves_le_one m log k h)

theorem applyLogStep_self_le_one [LinearOrderedField α]
    (m : List (String × α)) (log : ExerciseLog α)
    (h : lowerStr (stripStr log.muscle_group) ≠ "") :
    dictGet (applyLogStep m log) (lowerStr (stripStr log.muscle_group)) 0 ≤ 1 := by
  simp only [applyLogStep, h, if_false]
  rw [dictGet_insert_self]
  exact min_le_left _ _

/-- C8: the RPE update computes each log's average RPE from its sets (or the
stored average when no per-set data exists), adds `0.6` for average ≥ 8, else
`0.4` for ≥ 5, else `0.2`, to the log's muscle group, and every group touched
by a log ends at most 1.0. -/
theorem rpe_update_deltas_and_cap [LinearOrderedField α]
    (fs : List (String × α)) (logs : List (ExerciseLog α)) (hne : logs ≠ []) :
    (∀ log : ExerciseLog α, avgRpeOfLog log =
        (if log.sets = [] then log.average_rpe
         else (log.sets.map (fun st => st.rpe)).sum / (log.sets.length : α)))
    ∧ (∀ (m : List (String × α)) (log : ExerciseLog α),
        lowerStr (stripStr log.muscle_group) ≠ "" →
        applyLogStep m log = dictInsert m (lowerStr (stripStr log.muscle_group))
          (min 1 (dictGet m (lowerStr (stripStr log.muscle_group)) 0 +
            (if avgRpeOfLog log ≥ 8 then 0.6
             else if avgRpeOfLog log ≥ 5 then 0.4 else 0.2))))
    ∧ compute_fatigue_from_logs fs logs = logs.foldl applyLogStep fs
    ∧ (∀ log ∈ logs, lowerStr (stripStr log.muscle_group) ≠ "" →
        dictGet (compute_fatigue_from_logs fs logs)
          (lowerStr (stripStr log.muscle_group)) 0 ≤ 1) := by
  refine ⟨?_, ?_, rfl, ?_⟩
  · intro log
    cases hsets : log.sets with
    | nil => simp [avgRpeOfLog, hsets]
    | cons st sts => simp [avgRpeOfLog, hsets]
  · intro m log h
    simp [applyLogStep, h, rpe_to_fatigue_delta]
  · intro log hmem h
    obtain ⟨l₁, l₂, rfl⟩ := List.append_of_mem hmem
    rw [compute_fatigue_from_logs, List.foldl_append, List.foldl_cons]
    exact foldl_applyLog_preserves_le_one l₂ _ _
      (applyLogStep_self_le_one (l₁.foldl applyLogStep fs) log h)

/-- Witness for C8: one heavy squat log (average RPE 8) on half-fatigued
legs. -/
theorem rpe_update_deltas_and_cap_witness :
    (∀ log : ExerciseLog ℚ, avgRpeOfLog log =
        (if log.sets = [] then log.average_rpe
         else (log.sets.map (fun st => st.rpe)).sum / (log.sets.length : ℚ)))
    ∧ (∀ (m : List (String × ℚ)) (log : ExerciseLog ℚ),
        lowerStr (stripStr log.muscle_group) ≠ "" →
        applyLogStep m log = dictInsert m (lowerStr (stripStr log.muscle_group))
          (min 1 (dictGet m (lowerStr (stripStr log.muscle_group)) 0 +
            (if avgRpeOfLog log ≥ 8 then 0.6
             else if avgRpeOfLog log ≥ 5 then 0.4 else 0.2))))
    ∧ compute_fatigue_from_logs [("legs", (0.5 : ℚ))] [squatLogEx]
        = [squatLogEx].foldl applyLogStep [("legs", (0.5 : ℚ))]
    ∧ (∀ log ∈ [squatLogEx], lowerStr (stripStr log.muscle_group) ≠ "" →
        dictGet (compute_fatigue_from_logs [("legs", (0.5 : ℚ))] [squatLogEx])
          (lowerStr (stripStr log.muscle_group)) 0 ≤ 1) :=
  rpe_update_deltas_and_cap [("legs", (0.5 : ℚ))] [squatLogEx] (by simp)

/-! ## Default fatigue update and the precedence scan (C9) -/

theorem containsSub_empty_hay (n : String) (h : n ≠ "") : containsSub "" n = false := by
  cases n with
  | mk d =>
    cases d with
    | nil => exact absurd rfl h
    | cons c cs => rfl

theorem lowerStr_empty : lowerStr "" = "" := rfl

theorem lowerStr_eq_nil_iff (s : String) : lowerStr s = "" ↔ s = "" := by
  cases s with
  | mk d =>
    cases d with
    | nil => exact ⟨fun _ => rfl, fun _ => rfl⟩
    | cons c cs =>
      constructor
      · intro hh
        exact absurd (congrArg String.data hh) (List.cons_ne_nil _ _)
      · intro hh
        exact absurd (congrArg String.data hh) (List.cons_ne_nil _ _)

theorem guardedKeys_find?_some (ps : List (String × Bool)) :
    ∀ p, ps.find? (fun q => q.2) = some p → ∃ t, guardedKeys ps = p.1 :: t := by
  induction ps with
  | nil => intro p hp; simp [List.find?] at hp
  | cons q qs ih =>
    intro p hp
    cases hq : q.2 with
    | true =>
      rw [List.find?_cons_of_pos _ (by simpa using hq)] at hp
      cases hp
      exact ⟨guardedKeys qs, by simp [guardedKeys, hq]⟩
    | false =>
      rw [List.find?_cons_of_neg _ (by simpa using hq)] at hp
      obtain ⟨t, ht⟩ := ih p hp
      exact ⟨t, by simp [guardedKeys, hq, ht]⟩

theorem finalize_keys_expand (w : Workout) :
    finalize_fatigue_keys w = keysFromPairs w := by
  unfold finalize_fatigue_keys keysFromPairs finalizePrecedencePairs
  by_cases h1 : lowerStr w.focus_area = "" <;>
    by_cases h2 : lowerStr w.focus_system = "" <;>
      by_cases h3 : lowerStr w.focus_attribute = "" <;>
        simp +decide [guardedKeys, h1, h2, h3, containsSub_empty_hay, List.append_assoc]

/-- C9 (amended): when every focus field of the plan is empty,
`compute_default_fatigue` changes nothing (zero keys — the situation of the
counterexample); when some focus field is non-empty it modifies exactly one
key, adding `+0.5` capped at 1.0 and leaving every other key unchanged; and
whenever the spec's precedence list (legs, push, pull, spine, hips, shoulders,
cardio, cns, coordination, speed, endurance) has a match, the single derived
key is the first match. -/
theorem default_update_single_key [LinearOrderedField α]
    (m : List (String × α)) (w : Workout) :
    ((w.focus_area = "" ∧ w.focus_system = "" ∧ w.focus_attribute = "") →
      finalize_fatigue_keys w = [] ∧ compute_default_fatigue m w = m)
    ∧ (¬(w.focus_area = "" ∧ w.focus_system = "" ∧ w.focus_attribute = "") →
      ∃ k, finalize_fatigue_keys w = [k]
        ∧ compute_default_fatigue m w = dictInsert m k (min 1 (dictGet m k 0 + 0.5))
        ∧ ∀ (d : α) (k' : String), k' ≠ k →
            dictGet (compute_default_fatigue m w) k' d = dictGet m k' d)
    ∧ (∀ k, firstPrecedenceMatch w = some k → finalize_fatigue_keys w = [k]) := by
  have hsingle : ∀ k, finalize_fatigue_keys w = [k] →
      compute_default_fatigue m w = dictInsert m k (min 1 (dictGet m k 0 + 0.5))
        ∧ ∀ (d : α) (k' : String), k' ≠ k →
            dictGet (compute_default_fatigue m w) k' d = dictGet m k' d := by
    intro k hk
    constructor
    · simp [compute_default_fatigue, hk]
    · intro d k' hkk
      simp only [compute_default_fatigue, hk, List.foldl_cons, List.foldl_nil]
      exact dictGet_insert_ne m k k' _ d hkk
  have hcons : ∀ k t, guardedKeys (finalizePrecedencePairs w) = k :: t →
      finalize_fatigue_keys w = [k] := by
    intro k t hg
    rw [finalize_keys_expand]
    unfold keysFromPairs
    rw [hg]
    simp [dedupFirst]
  refine ⟨?_, ?_, ?_⟩
  · intro ⟨ha, hb, hc⟩
    have hkeys : finalize_fatigue_keys w = [] := by
      unfold finalize_fatigue_keys
      simp +decide [ha, hb, hc, lowerStr_empty, dedupFirst]
    exact ⟨hkeys, by simp [compute_default_fatigue, hkeys]⟩
  · intro hne
    cases hg : guardedKeys (finalizePrecedencePairs w) with
    | cons k t => exact ⟨k, hcons k t hg, hsingle k (hcons k t hg)⟩
    | nil =>
      by_cases h1 : lowerStr w.focus_area = ""
      · by_cases h2 : lowerStr w.focus_system = ""
        · by_cases h3 : lowerStr w.focus_attribute = ""
          · exact absurd ⟨(lowerStr_eq_nil_iff _).mp h1, (lowerStr_eq_nil_iff _).mp h2,
              (lowerStr_eq_nil_iff _).mp h3⟩ hne
          · refine ⟨"coordination", ?_, ?_⟩
            · rw [finalize_keys_expand]
              unfold keysFromPairs
              rw [hg]
              simp [dedupFirst, h1, h2, h3]
            · exact hsingle _ (by
                rw [finalize_keys_expand]
                unfold keysFromPairs
                rw [hg]
                simp [dedupFirst, h1, h2, h3])
        · refine ⟨"cardio", ?_, ?_⟩
          · rw [finalize_keys_expand]
            unfold keysFromPairs
            rw [hg]
            simp [dedupFirst, h1, h2]
          · exact hsingle _ (by
              rw [finalize_keys_expand]
              unfold keysFromPairs
              rw [hg]
              simp [dedupFirst, h1, h2])
      · refine ⟨if containsSub (lowerStr w.focus_area) "leg" then "legs"
          else if containsSub (lowerStr w.focus_area) "push" then "push" else "pull", ?_, ?_⟩
        · rw [finalize_keys_expand]
          unfold keysFromPairs
          rw [hg]
          simp [dedupFirst, h1]
        · exact hsingle _ (by
            rw [finalize_keys_expand]
            unfold keysFromPairs
            rw [hg]
            simp [dedupFirst, h1])
  · intro k hk
    unfold firstPrecedenceMatch at hk
    cases hfind : (finalizePrecedencePairs w).find? (fun p => p.2) with
    | none => rw [hfind] at hk; simp at hk
    | some p =>
      rw [hfind] at hk
      simp only [Option.map_some'] at hk
      obtain ⟨t, ht⟩ := guardedKeys_find?_some (finalizePrecedencePairs w) p hfind
      have hp : p.1 = k := Option.some.inj hk
      exact hcons k t (hp ▸ ht)

/-- Counterexample to C9 as stated: a recovery plan carries none of the focus
keys, so `compute_default_fatigue` derives no key at all and modifies zero
keys — not "exactly one". -/
theorem default_update_no_focus_counterexample :
    recoveryPlanEx.focus_area = "" ∧ recoveryPlanEx.focus_system = ""
    ∧ recoveryPlanEx.focus_attribute = ""
    ∧ finalize_fatigue_keys recoveryPlanEx = []
    ∧ compute_default_fatigue [("legs", (1 : ℚ))] recoveryPlanEx = [("legs", (1 : ℚ))] := by
  decide

/-! ## Corrupted-checkpoint recovery (C10) -/

/-- C10: when the stored record fails to deserialize (the engine's recognized
corrupted-checkpoint `KeyError`), `run_workout` discards the record and runs
the graph on the fresh overrides-only state; the result is `ok` (the failure is
never surfaced to the caller), and it is independent of whatever the invalid
record held — its fields are never merged. -/
theorem corrupted_checkpoint_reinit_from_overrides [LinearOrderedField α]
    (run : FitnessState α → FitnessState α) (a : RunArgs α)
    (payload payload' : FitnessState α) (err : String)
    (h : recognizedCorruption err = true) :
    run_workout_model run (some (.corrupt payload err)) a
        = Except.ok (run (mkFreshState a))
    ∧ run_workout_model run (some (.corrupt payload err)) a
        = run_workout_model run (some (.corrupt payload' err)) a := by
  constructor
  · simp [run_workout_model, get_user_state, appInvoke, h]
  · simp [run_workout_model, get_user_state, appInvoke, h]

/-- Witness for C10: a checkpoint whose load raises a `pending_sends`
`KeyError` is repaired identically for two different stale payloads. -/
theorem corrupted_checkpoint_reinit_from_overrides_witness :
    run_workout_model id (some (.corrupt stalePayload "KeyError: pending_sends"))
        sampleRunArgs = Except.ok (id (mkFreshState sampleRunArgs))
    ∧ run_workout_model id (some (.corrupt stalePayload "KeyError: pending_sends"))
        sampleRunArgs
      = run_workout_model id (some (.corrupt stalePayload' "KeyError: pending_sends"))
        sampleRunArgs :=
  corrupted_checkpoint_reinit_from_overrides id sampleRunArgs stalePayload stalePayload'
    "KeyError: pending_sends" (by decide)

end FitApp
